import Mathlib

/-!
Shallow embedding of the pairwise-similarity engine of the repository:
`agent/similarity_calculator.py` (the pairwise metric `SA` and the
triangular matrix loop of its main block) and `agent/similarity_matrix.py`
(`calculate_similarity_matrix`, the vectorized builder).  Real-valued
telemetry fields are modelled by `ℝ`.  The one place where IEEE semantics
matters — `quaternions / norms` in the vectorized builder, which turns a
zero-norm quaternion row into NaN via `0/0` — is modelled explicitly with
`Option ℝ`, `none` standing for a non-finite result of a division by zero;
everywhere else both Python paths perform ordinary real arithmetic on
finite values.
-/

namespace Similarity

/-- One row of the telemetry table (columns `anchor_id`, `env_name`,
`pos_x pos_y pos_z`, `q_w q_x q_y q_z`, `vel_x vel_y vel_z`).  Other
columns are ignored by the similarity core. -/
structure StateRecord where
  anchor_id : ℕ
  env_name : ℕ
  pos_x : ℝ
  pos_y : ℝ
  pos_z : ℝ
  q_w : ℝ
  q_x : ℝ
  q_y : ℝ
  q_z : ℝ
  vel_x : ℝ
  vel_y : ℝ
  vel_z : ℝ

/-- Euclidean norm of a 3-vector (`np.linalg.norm` on a length-3 array). -/
noncomputable def norm3 (x y z : ℝ) : ℝ := Real.sqrt (x ^ 2 + y ^ 2 + z ^ 2)

/-- Euclidean norm of a 4-vector. -/
noncomputable def norm4 (w x y z : ℝ) : ℝ := Real.sqrt (w ^ 2 + x ^ 2 + y ^ 2 + z ^ 2)

/-- `np.linalg.norm(pos1 - pos2)` in `SA`; the same value is the `(i, j)`
entry of `squareform(pdist(positions, euclidean))` in the vectorized
builder. -/
noncomputable def pos_distance (r1 r2 : StateRecord) : ℝ :=
  norm3 (r1.pos_x - r2.pos_x) (r1.pos_y - r2.pos_y) (r1.pos_z - r2.pos_z)

/-- Velocity magnitude of one record. -/
noncomputable def vel_magnitude (r : StateRecord) : ℝ := norm3 r.vel_x r.vel_y r.vel_z

/-- `avg_velocity = (vel1_mag + vel2_mag) / 2.0`. -/
noncomputable def avg_velocity (r1 r2 : StateRecord) : ℝ :=
  (vel_magnitude r1 + vel_magnitude r2) / 2

/-- `dynamic_scale = Wp / (1 + avg_velocity * Wv)`. -/
noncomputable def dynamic_scale (r1 r2 : StateRecord) (Wp Wv : ℝ) : ℝ :=
  Wp / (1 + avg_velocity r1 r2 * Wv)

/-- `pos_similarity = np.exp(-dynamic_scale * pos_distance)`. -/
noncomputable def pos_similarity (r1 r2 : StateRecord) (Wp Wv : ℝ) : ℝ :=
  Real.exp (-dynamic_scale r1 r2 Wp Wv * pos_distance r1 r2)

/-- Norm of the quaternion row of a record. -/
noncomputable def q_norm (r : StateRecord) : ℝ := norm4 r.q_w r.q_x r.q_y r.q_z

/-- The quaternion of a record after the guarded normalization of `SA`
(`if norm_q1 > 0: q1 /= norm_q1`): a zero-norm quaternion is left
untouched. -/
noncomputable def q_normalized (r : StateRecord) : ℝ × ℝ × ℝ × ℝ :=
  if 0 < q_norm r then
    (r.q_w / q_norm r, r.q_x / q_norm r, r.q_y / q_norm r, r.q_z / q_norm r)
  else (r.q_w, r.q_x, r.q_y, r.q_z)

/-- Dot product of two 4-vectors, `np.dot(q1, q2)`. -/
def dot4 (p q : ℝ × ℝ × ℝ × ℝ) : ℝ :=
  p.1 * q.1 + p.2.1 * q.2.1 + p.2.2.1 * q.2.2.1 + p.2.2.2 * q.2.2.2

/-- `rot_similarity = np.clip(np.abs(np.dot(q1, q2)), 0.0, 1.0)` computed on
the guarded-normalized quaternions of the naive path. -/
noncomputable def rot_similarity (r1 r2 : StateRecord) : ℝ :=
  min (max |dot4 (q_normalized r1) (q_normalized r2)| 0) 1

/-- The pairwise metric `SA(row1, row2, Wp, Wv, Wpos, Wrot)` of
`similarity_calculator.py`. -/
noncomputable def SA (r1 r2 : StateRecord) (Wp Wv Wpos Wrot : ℝ) : ℝ :=
  if r1.anchor_id = r2.anchor_id then 1
  else if r1.env_name ≠ r2.env_name then 0
  else pos_similarity r1 r2 Wp Wv * Wpos + rot_similarity r1 r2 * Wrot

/-- The matrix built by the main-block loop of `similarity_calculator.py`:
for every `i ≤ j` the single value `SA(row_i, row_j)` is written to both
`(i, j)` and `(j, i)`. -/
noncomputable def naive_matrix (df : List StateRecord) (Wp Wv Wpos Wrot : ℝ)
    (i j : Fin df.length) : ℝ :=
  if i ≤ j then SA (df.get i) (df.get j) Wp Wv Wpos Wrot
  else SA (df.get j) (df.get i) Wp Wv Wpos Wrot

/-- Division as performed by numpy on finite operands: a division by zero
does not produce a real number (numpy: `0/0` is NaN, `x/0` is signed
infinity); `none` stands for such a non-finite result. -/
noncomputable def npdiv (x y : ℝ) : Option ℝ :=
  if y = 0 then none else some (x / y)

/-- Multiplication propagating non-finite operands. -/
def omul : Option ℝ → Option ℝ → Option ℝ
  | some a, some b => some (a * b)
  | _, _ => none

/-- Addition propagating non-finite operands. -/
def oadd : Option ℝ → Option ℝ → Option ℝ
  | some a, some b => some (a + b)
  | _, _ => none

/-- Absolute value propagating non-finite operands. -/
def oabs : Option ℝ → Option ℝ := Option.map abs

/-- Row `r` of `quaternions_normalized = quaternions / norms` in the
vectorized builder: the division is NOT guarded, so a zero-norm row is
divided by zero componentwise. -/
noncomputable def vec_q_normalized (r : StateRecord) :
    Option ℝ × Option ℝ × Option ℝ × Option ℝ :=
  (npdiv r.q_w (q_norm r), npdiv r.q_x (q_norm r),
   npdiv r.q_y (q_norm r), npdiv r.q_z (q_norm r))

/-- Entry `(i, j)` of `np.abs(Qn @ Qn.T)` in the vectorized builder — note
that no clip is applied there. -/
noncomputable def vec_rot_entry (r1 r2 : StateRecord) : Option ℝ :=
  oabs (oadd (oadd (oadd
    (omul (vec_q_normalized r1).1 (vec_q_normalized r2).1)
    (omul (vec_q_normalized r1).2.1 (vec_q_normalized r2).2.1))
    (omul (vec_q_normalized r1).2.2.1 (vec_q_normalized r2).2.2.1))
    (omul (vec_q_normalized r1).2.2.2 (vec_q_normalized r2).2.2.2))

/-- Entry `(i, j)` of the vectorized position-similarity matrix:
`np.exp(-(Wp / (1 + avg_vel_matrix * Wv)) * pos_dist_matrix)`. -/
noncomputable def vec_pos_similarity (r1 r2 : StateRecord) (Wp Wv : ℝ) : ℝ :=
  Real.exp (-(Wp / (1 + (vel_magnitude r1 + vel_magnitude r2) / 2 * Wv)) *
    pos_distance r1 r2)

/-- Off-diagonal entry `(i, j)` of the final vectorized matrix:
`pos_similarity_matrix * Wpos + rot_similarity_matrix * Wrot`, after which
the env-mismatch mask forces `0.0`. -/
noncomputable def vec_entry (r1 r2 : StateRecord) (Wp Wv Wpos Wrot : ℝ) : Option ℝ :=
  if r1.env_name ≠ r2.env_name then some 0
  else oadd (omul (some (vec_pos_similarity r1 r2 Wp Wv)) (some Wpos))
            (omul (vec_rot_entry r1 r2) (some Wrot))

/-- The matrix returned by `calculate_similarity_matrix`: the final
`np.fill_diagonal(final_similarity_matrix, 1.0)` overrides everything on
the diagonal. -/
noncomputable def vec_matrix (df : List StateRecord) (Wp Wv Wpos Wrot : ℝ)
    (i j : Fin df.length) : Option ℝ :=
  if i = j then some 1 else vec_entry (df.get i) (df.get j) Wp Wv Wpos Wrot

/-- The value is an actual real number and lies in the closed unit
interval. -/
def mem_unit : Option ℝ → Prop
  | some x => 0 ≤ x ∧ x ≤ 1
  | none => False

/-- Record with a zero-norm (degenerate) quaternion: same environment as
`recQ1`, distinct id, every numeric field zero.  Field order: anchor_id,
env_name, pos (3), quat (4), vel (3). -/
noncomputable def recQ0 : StateRecord := ⟨0, 0, 0, 0, 0, 0, 0, 0, 0, 0, 0, 0⟩

/-- Record with the unit quaternion `(1, 0, 0, 0)`. -/
noncomputable def recQ1 : StateRecord := ⟨1, 0, 0, 0, 0, 1, 0, 0, 0, 0, 0, 0⟩

/-- Two-record batch exhibiting the zero-norm-quaternion divergence between
the naive and the vectorized builder. -/
noncomputable def bugBatch : List StateRecord := [recQ0, recQ1]

/-- Same-environment records at distance 1 resp. 2 from `recA` along the
x-axis, identical unit quaternions, zero velocities. -/
noncomputable def recA : StateRecord := ⟨0, 0, 0, 0, 0, 1, 0, 0, 0, 0, 0, 0⟩

noncomputable def recB : StateRecord := ⟨1, 0, 1, 0, 0, 1, 0, 0, 0, 0, 0, 0⟩

noncomputable def recC : StateRecord := ⟨2, 0, 2, 0, 0, 1, 0, 0, 0, 0, 0, 0⟩

/-- Record in a different environment with a different id. -/
noncomputable def recD : StateRecord := ⟨3, 1, 0, 0, 0, 1, 0, 0, 0, 0, 0, 0⟩

/-- Record sharing anchor_id 0 with `recA` but with noisy other fields,
including a zero-norm quaternion and a different environment. -/
noncomputable def recNoisy : StateRecord := ⟨0, 5, 7, 8, 9, 0, 0, 0, 0, 3, 4, 5⟩

noncomputable def twoBatch : List StateRecord := [recA, recB]

/-! ### Basic facts about the scalar channels -/

theorem norm3_nonneg (x y z : ℝ) : 0 ≤ norm3 x y z := Real.sqrt_nonneg _

theorem norm4_nonneg (w x y z : ℝ) : 0 ≤ norm4 w x y z := Real.sqrt_nonneg _

theorem pos_distance_nonneg (r1 r2 : StateRecord) : 0 ≤ pos_distance r1 r2 :=
  norm3_nonneg _ _ _

theorem pos_distance_comm (r1 r2 : StateRecord) :
    pos_distance r1 r2 = pos_distance r2 r1 := by
  unfold pos_distance norm3
  congr 1
  ring

theorem vel_magnitude_nonneg (r : StateRecord) : 0 ≤ vel_magnitude r := by
  unfold vel_magnitude
  exact norm3_nonneg _ _ _

theorem avg_velocity_comm (r1 r2 : StateRecord) :
    avg_velocity r1 r2 = avg_velocity r2 r1 := by
  unfold avg_velocity
  ring

theorem avg_velocity_nonneg (r1 r2 : StateRecord) : 0 ≤ avg_velocity r1 r2 := by
  unfold avg_velocity
  have h1 := vel_magnitude_nonneg r1
  have h2 := vel_magnitude_nonneg r2
  linarith

theorem one_add_avg_pos (r1 r2 : StateRecord) (Wv : ℝ) (hWv : 0 ≤ Wv) :
    0 < 1 + avg_velocity r1 r2 * Wv := by
  have := mul_nonneg (avg_velocity_nonneg r1 r2) hWv
  linarith

theorem dynamic_scale_nonneg (r1 r2 : StateRecord) (Wp Wv : ℝ)
    (hWp : 0 ≤ Wp) (hWv : 0 ≤ Wv) : 0 ≤ dynamic_scale r1 r2 Wp Wv := by
  unfold dynamic_scale
  exact div_nonneg hWp (one_add_avg_pos r1 r2 Wv hWv).le

theorem dynamic_scale_pos (r1 r2 : StateRecord) (Wp Wv : ℝ)
    (hWp : 0 < Wp) (hWv : 0 ≤ Wv) : 0 < dynamic_scale r1 r2 Wp Wv := by
  unfold dynamic_scale
  exact div_pos hWp (one_add_avg_pos r1 r2 Wv hWv)

theorem pos_similarity_pos (r1 r2 : StateRecord) (Wp Wv : ℝ) :
    0 < pos_similarity r1 r2 Wp Wv := Real.exp_pos _

theorem pos_similarity_le_one (r1 r2 : StateRecord) (Wp Wv : ℝ)
    (hWp : 0 ≤ Wp) (hWv : 0 ≤ Wv) : pos_similarity r1 r2 Wp Wv ≤ 1 := by
  unfold pos_similarity
  have hs := dynamic_scale_nonneg r1 r2 Wp Wv hWp hWv
  have hd := pos_distance_nonneg r1 r2
  have : -dynamic_scale r1 r2 Wp Wv * pos_distance r1 r2 ≤ 0 := by
    have := mul_nonneg hs hd
    nlinarith
  calc Real.exp (-dynamic_scale r1 r2 Wp Wv * pos_distance r1 r2)
      ≤ Real.exp 0 := Real.exp_le_exp.mpr this
    _ = 1 := Real.exp_zero

theorem pos_similarity_comm (r1 r2 : StateRecord) (Wp Wv : ℝ) :
    pos_similarity r1 r2 Wp Wv = pos_similarity r2 r1 Wp Wv := by
  unfold pos_similarity dynamic_scale
  rw [pos_distance_comm, avg_velocity_comm]

theorem dot4_comm (p q : ℝ × ℝ × ℝ × ℝ) : dot4 p q = dot4 q p := by
  unfold dot4
  ring

theorem rot_similarity_nonneg (r1 r2 : StateRecord) : 0 ≤ rot_similarity r1 r2 := by
  unfold rot_similarity
  exact le_min (le_max_right _ _) zero_le_one

theorem rot_similarity_le_one (r1 r2 : StateRecord) : rot_similarity r1 r2 ≤ 1 := by
  unfold rot_similarity
  exact min_le_right _ _

theorem rot_similarity_comm (r1 r2 : StateRecord) :
    rot_similarity r1 r2 = rot_similarity r2 r1 := by
  unfold rot_similarity
  rw [dot4_comm]

theorem q_norm_nonneg (r : StateRecord) : 0 ≤ q_norm r := norm4_nonneg _ _ _ _

theorem q_norm_sq (r : StateRecord) :
    q_norm r ^ 2 = r.q_w ^ 2 + r.q_x ^ 2 + r.q_y ^ 2 + r.q_z ^ 2 := by
  unfold q_norm norm4
  exact Real.sq_sqrt (by positivity)

theorem q_normalized_unit (r : StateRecord) (h : q_norm r ≠ 0) :
    (q_normalized r).1 ^ 2 + (q_normalized r).2.1 ^ 2 +
      (q_normalized r).2.2.1 ^ 2 + (q_normalized r).2.2.2 ^ 2 = 1 := by
  have hpos : 0 < q_norm r := lt_of_le_of_ne (q_norm_nonneg r) (Ne.symm h)
  unfold q_normalized
  rw [if_pos hpos]
  have hsq := q_norm_sq r
  field_simp
  linarith

theorem abs_dot4_le_one (p q : ℝ × ℝ × ℝ × ℝ)
    (hp : p.1 ^ 2 + p.2.1 ^ 2 + p.2.2.1 ^ 2 + p.2.2.2 ^ 2 = 1)
    (hq : q.1 ^ 2 + q.2.1 ^ 2 + q.2.2.1 ^ 2 + q.2.2.2 ^ 2 = 1) :
    |dot4 p q| ≤ 1 := by
  unfold dot4
  rw [abs_le]
  constructor
  · nlinarith [sq_nonneg (p.1 + q.1), sq_nonneg (p.2.1 + q.2.1),
      sq_nonneg (p.2.2.1 + q.2.2.1), sq_nonneg (p.2.2.2 + q.2.2.2)]
  · nlinarith [sq_nonneg (p.1 - q.1), sq_nonneg (p.2.1 - q.2.1),
      sq_nonneg (p.2.2.1 - q.2.2.1), sq_nonneg (p.2.2.2 - q.2.2.2)]

/-! ### Option arithmetic (non-finite propagation) -/

theorem omul_some (a b : ℝ) : omul (some a) (some b) = some (a * b) := rfl

theorem omul_none_left (y : Option ℝ) : omul none y = none := by
  cases y <;> rfl

theorem omul_none_right (x : Option ℝ) : omul x none = none := by
  cases x <;> rfl

theorem omul_comm (x y : Option ℝ) : omul x y = omul y x := by
  cases x <;> cases y <;> simp [omul, mul_comm]

theorem oadd_some (a b : ℝ) : oadd (some a) (some b) = some (a + b) := rfl

theorem oadd_none_left (y : Option ℝ) : oadd none y = none := by
  cases y <;> rfl

theorem oadd_none_right (x : Option ℝ) : oadd x none = none := by
  cases x <;> rfl

theorem oabs_some (a : ℝ) : oabs (some a) = some |a| := rfl

theorem oabs_none : oabs none = none := rfl

/-! ### The vectorized rotation channel -/

theorem vec_rot_entry_none_left (r1 r2 : StateRecord) (h : q_norm r1 = 0) :
    vec_rot_entry r1 r2 = none := by
  unfold vec_rot_entry vec_q_normalized npdiv
  simp [h, omul_none_left, oadd_none_left, oabs_none]

theorem vec_rot_entry_comm (r1 r2 : StateRecord) :
    vec_rot_entry r1 r2 = vec_rot_entry r2 r1 := by
  unfold vec_rot_entry
  rw [omul_comm (vec_q_normalized r1).1,
    omul_comm (vec_q_normalized r1).2.1,
    omul_comm (vec_q_normalized r1).2.2.1,
    omul_comm (vec_q_normalized r1).2.2.2]

theorem vec_rot_entry_eq (r1 r2 : StateRecord)
    (h1 : q_norm r1 ≠ 0) (h2 : q_norm r2 ≠ 0) :
    vec_rot_entry r1 r2 = some |dot4 (q_normalized r1) (q_normalized r2)| := by
  have p1 : 0 < q_norm r1 := lt_of_le_of_ne (q_norm_nonneg r1) (Ne.symm h1)
  have p2 : 0 < q_norm r2 := lt_of_le_of_ne (q_norm_nonneg r2) (Ne.symm h2)
  unfold vec_rot_entry vec_q_normalized npdiv q_normalized dot4
  simp [h1, h2, p1, p2, omul_some, oadd_some, oabs_some]

theorem vec_pos_similarity_eq (r1 r2 : StateRecord) (Wp Wv : ℝ) :
    vec_pos_similarity r1 r2 Wp Wv = pos_similarity r1 r2 Wp Wv := rfl

/-! ### Bounds on the combined score -/

theorem SA_bounds (r1 r2 : StateRecord) (Wp Wv Wpos Wrot : ℝ)
    (hWp : 0 ≤ Wp) (hWv : 0 ≤ Wv) (hWpos : 0 ≤ Wpos) (hWrot : 0 ≤ Wrot)
    (hsum : Wpos + Wrot ≤ 1) :
    0 ≤ SA r1 r2 Wp Wv Wpos Wrot ∧ SA r1 r2 Wp Wv Wpos Wrot ≤ 1 := by
  unfold SA
  by_cases h1 : r1.anchor_id = r2.anchor_id
  · simp [h1]
  · rw [if_neg h1]
    by_cases h2 : r1.env_name ≠ r2.env_name
    · simp [h2]
    · rw [if_neg h2]
      have hp0 := (pos_similarity_pos r1 r2 Wp Wv).le
      have hp1 := pos_similarity_le_one r1 r2 Wp Wv hWp hWv
      have hr0 := rot_similarity_nonneg r1 r2
      have hr1 := rot_similarity_le_one r1 r2
      constructor
      · exact add_nonneg (mul_nonneg hp0 hWpos) (mul_nonneg hr0 hWrot)
      · nlinarith

/-! ### Values of the concrete records -/

theorem q_norm_recQ0 : q_norm recQ0 = 0 := by
  simp [q_norm, norm4, recQ0]

theorem q_norm_recQ1 : q_norm recQ1 = 1 := by
  simp [q_norm, norm4, recQ1]

theorem q_norm_recA : q_norm recA = 1 := by
  simp [q_norm, norm4, recA]

theorem q_norm_recB : q_norm recB = 1 := by
  simp [q_norm, norm4, recB]

theorem q_norm_recC : q_norm recC = 1 := by
  simp [q_norm, norm4, recC]

theorem q_norm_recD : q_norm recD = 1 := by
  simp [q_norm, norm4, recD]

theorem rot_similarity_bug : rot_similarity recQ0 recQ1 = 0 := by
  have hq0 : q_normalized recQ0 = (0, 0, 0, 0) := by
    unfold q_normalized
    rw [if_neg (by rw [q_norm_recQ0]; exact lt_irrefl 0)]
    simp [recQ0]
  unfold rot_similarity
  rw [hq0]
  simp [dot4]

theorem pos_similarity_bug (Wp Wv : ℝ) : pos_similarity recQ0 recQ1 Wp Wv = 1 := by
  have hd : pos_distance recQ0 recQ1 = 0 := by
    simp [pos_distance, norm3, recQ0, recQ1]
  unfold pos_similarity
  rw [hd, mul_zero, Real.exp_zero]

theorem SA_bug_value : SA recQ0 recQ1 0.25 0.75 0.6 0.4 = 0.6 := by
  unfold SA
  rw [if_neg (by norm_num [recQ0, recQ1]), if_neg (by norm_num [recQ0, recQ1])]
  rw [pos_similarity_bug, rot_similarity_bug]
  norm_num

theorem vec_entry_bug : vec_entry recQ0 recQ1 0.25 0.75 0.6 0.4 = none := by
  unfold vec_entry
  rw [if_neg (by norm_num [recQ0, recQ1])]
  rw [vec_rot_entry_none_left recQ0 recQ1 q_norm_recQ0]
  rw [omul_none_left, oadd_none_right]

/-- Index 0 of the two-element bug batch. -/
noncomputable def bug0 : Fin bugBatch.length := ⟨0, by norm_num [bugBatch]⟩

/-- Index 1 of the two-element bug batch. -/
noncomputable def bug1 : Fin bugBatch.length := ⟨1, by norm_num [bugBatch]⟩

theorem bugBatch_get0 : bugBatch.get bug0 = recQ0 := rfl

theorem bugBatch_get1 : bugBatch.get bug1 = recQ1 := rfl

/-- Index 0 of `twoBatch`. -/
noncomputable def tb0 : Fin twoBatch.length := ⟨0, by norm_num [twoBatch]⟩

/-- Index 1 of `twoBatch`. -/
noncomputable def tb1 : Fin twoBatch.length := ⟨1, by norm_num [twoBatch]⟩

/-! ### The claims -/

/-- C1: the claim that the naive and the vectorized builder agree entrywise
within 1e-9 on every batch fails on a batch containing a zero-norm
quaternion: at entry (0, 1) of `bugBatch` (same environment, distinct ids,
record 0 carrying the zero quaternion) the naive matrix holds 0.6 while the
vectorized matrix holds NaN (the unguarded `quaternions / norms` divides
0 by 0), so the two entries do not agree within any tolerance. -/
theorem naive_vec_divergence_zero_quat :
    naive_matrix bugBatch 0.25 0.75 0.6 0.4 bug0 bug1 = 0.6 ∧
    vec_matrix bugBatch 0.25 0.75 0.6 0.4 bug0 bug1 = none := by
  constructor
  · unfold naive_matrix
    rw [if_pos (by norm_num [bug0, bug1, Fin.mk_le_mk])]
    rw [bugBatch_get0, bugBatch_get1, SA_bug_value]
  · unfold vec_matrix
    rw [if_neg (by norm_num [bug0, bug1, Fin.ext_iff])]
    rw [bugBatch_get0, bugBatch_get1, vec_entry_bug]

/-- C2: the claim that the vectorized builder leaves zero-norm quaternion
rows unnormalized (as the zero vector, matching the naive degeneracy
policy) fails on the code: `quaternions / norms` is unguarded, so on the
zero-quaternion record `recQ0` the rotation Gram entry against the unit
quaternion `recQ1` is NaN (`none`), whereas the naive path yields the
finite rotation similarity 0. -/
theorem vec_zero_norm_quat_is_nan :
    vec_rot_entry recQ0 recQ1 = none ∧ rot_similarity recQ0 recQ1 = 0 :=
  ⟨vec_rot_entry_none_left recQ0 recQ1 q_norm_recQ0, rot_similarity_bug⟩

/-- C3: the metric on two records with equal anchor_id returns exactly 1
whatever the numeric fields, and every diagonal entry of a built matrix is
exactly 1 in both the naive path (identity shortcut of `SA`) and the
vectorized path (`np.fill_diagonal`). -/
theorem SA_identity_diagonal_one (r1 r2 : StateRecord) (Wp Wv Wpos Wrot : ℝ)
    (h : r1.anchor_id = r2.anchor_id) (df : List StateRecord) (i : Fin df.length) :
    SA r1 r2 Wp Wv Wpos Wrot = 1 ∧
    naive_matrix df Wp Wv Wpos Wrot i i = 1 ∧
    vec_matrix df Wp Wv Wpos Wrot i i = some 1 := by
  refine ⟨?_, ?_, ?_⟩
  · unfold SA
    rw [if_pos h]
  · unfold naive_matrix
    rw [if_pos le_rfl]
    unfold SA
    rw [if_pos rfl]
  · unfold vec_matrix
    rw [if_pos rfl]

theorem SA_identity_diagonal_one_witness :
    recA.anchor_id = recNoisy.anchor_id ∧
    (SA recA recNoisy 0.25 0.75 0.6 0.4 = 1 ∧
     naive_matrix twoBatch 0.25 0.75 0.6 0.4 tb0 tb0 = 1 ∧
     vec_matrix twoBatch 0.25 0.75 0.6 0.4 tb0 tb0 = some 1) :=
  ⟨by norm_num [recA, recNoisy],
   SA_identity_diagonal_one recA recNoisy 0.25 0.75 0.6 0.4
     (by norm_num [recA, recNoisy]) twoBatch tb0⟩

/-- C4: for two records with different env_name and different anchor_id the
metric returns exactly 0, for every value of the position, velocity and
orientation fields (they are never inspected); the vectorized env-mismatch
mask likewise forces the entry to exactly 0. -/
theorem SA_cross_env_zero (r1 r2 : StateRecord) (Wp Wv Wpos Wrot : ℝ)
    (henv : r1.env_name ≠ r2.env_name) (hid : r1.anchor_id ≠ r2.anchor_id) :
    SA r1 r2 Wp Wv Wpos Wrot = 0 ∧ vec_entry r1 r2 Wp Wv Wpos Wrot = some 0 := by
  constructor
  · unfold SA
    rw [if_neg hid, if_pos henv]
  · unfold vec_entry
    rw [if_pos henv]

theorem SA_cross_env_zero_witness :
    recA.env_name ≠ recD.env_name ∧ recA.anchor_id ≠ recD.anchor_id ∧
    (SA recA recD 0.25 0.75 0.6 0.4 = 0 ∧
     vec_entry recA recD 0.25 0.75 0.6 0.4 = some 0) :=
  ⟨by norm_num [recA, recD], by norm_num [recA, recD],
   SA_cross_env_zero recA recD 0.25 0.75 0.6 0.4
     (by norm_num [recA, recD]) (by norm_num [recA, recD])⟩

/-- C5: every built matrix is exactly symmetric.  The naive loop writes the
one computed value to both `(i, j)` and `(j, i)`; in the vectorized path
every intermediate matrix (distance, outer average, Gram) is entrywise
symmetric, the env mask is symmetric, and NaN entries (modelled `none`)
occur symmetrically. -/
theorem matrix_symmetry (df : List StateRecord) (Wp Wv Wpos Wrot : ℝ)
    (i j : Fin df.length) :
    naive_matrix df Wp Wv Wpos Wrot i j = naive_matrix df Wp Wv Wpos Wrot j i ∧
    vec_matrix df Wp Wv Wpos Wrot i j = vec_matrix df Wp Wv Wpos Wrot j i := by
  constructor
  · unfold naive_matrix
    by_cases hij : i ≤ j
    · by_cases hji : j ≤ i
      · have h : i = j := le_antisymm hij hji
        subst h
        rfl
      · rw [if_pos hij, if_neg hji]
    · have hji : j ≤ i := le_of_not_le hij
      rw [if_neg hij, if_pos hji]
  · unfold vec_matrix
    by_cases hij : i = j
    · subst hij
      rfl
    · rw [if_neg hij, if_neg (Ne.symm hij)]
      unfold vec_entry
      by_cases henv : (df.get i).env_name ≠ (df.get j).env_name
      · rw [if_pos henv, if_pos (Ne.symm henv)]
      · rw [if_neg henv, if_neg (fun h => henv (Ne.symm h))]
        rw [vec_rot_entry_comm]
        have hps : vec_pos_similarity (df.get i) (df.get j) Wp Wv =
            vec_pos_similarity (df.get j) (df.get i) Wp Wv := by
          rw [vec_pos_similarity_eq, vec_pos_similarity_eq, pos_similarity_comm]
        rw [hps]

/-- C6 counterexample: on the batch containing a zero-norm quaternion the
vectorized matrix has a NaN entry at (0, 1) even though every input field
is finite and the default hyperparameters satisfy `Wpos + Wrot = 1`, so
this entry does not lie in the unit interval. -/
theorem vec_entry_not_in_unit_interval :
    ¬ mem_unit (vec_matrix bugBatch 0.25 0.75 0.6 0.4 bug0 bug1) := by
  unfold vec_matrix
  rw [if_neg (by norm_num [bug0, bug1, Fin.ext_iff])]
  rw [bugBatch_get0, bugBatch_get1, vec_entry_bug]
  simp [mem_unit]

/-- C6 (amended): with nonnegative hyperparameters and `Wpos + Wrot ≤ 1`,
every entry of the naive matrix lies in [0, 1], the diagonal is exactly 1
in both paths, and an entry forced by the env-mismatch rule is exactly 0
in both paths — all of this for every batch; the vectorized entries are
real numbers in [0, 1] provided additionally every record quaternion has
nonzero norm (a zero-norm quaternion makes such an entry NaN instead). -/
theorem matrix_entries_bounded (df : List StateRecord) (Wp Wv Wpos Wrot : ℝ)
    (hWp : 0 ≤ Wp) (hWv : 0 ≤ Wv) (hWpos : 0 ≤ Wpos) (hWrot : 0 ≤ Wrot)
    (hsum : Wpos + Wrot ≤ 1) (i j : Fin df.length) :
    (0 ≤ naive_matrix df Wp Wv Wpos Wrot i j ∧
     naive_matrix df Wp Wv Wpos Wrot i j ≤ 1) ∧
    ((∀ r ∈ df, q_norm r ≠ 0) → mem_unit (vec_matrix df Wp Wv Wpos Wrot i j)) ∧
    naive_matrix df Wp Wv Wpos Wrot i i = 1 ∧
    vec_matrix df Wp Wv Wpos Wrot i i = some 1 ∧
    ((df.get i).anchor_id ≠ (df.get j).anchor_id →
      (df.get i).env_name ≠ (df.get j).env_name →
      naive_matrix df Wp Wv Wpos Wrot i j = 0 ∧
      (i ≠ j → vec_matrix df Wp Wv Wpos Wrot i j = some 0)) := by
  refine ⟨?_, ?_, ?_, ?_, ?_⟩
  · unfold naive_matrix
    by_cases hij : i ≤ j
    · rw [if_pos hij]
      exact SA_bounds _ _ Wp Wv Wpos Wrot hWp hWv hWpos hWrot hsum
    · rw [if_neg hij]
      exact SA_bounds _ _ Wp Wv Wpos Wrot hWp hWv hWpos hWrot hsum
  · intro hq
    have hqi : q_norm (df.get i) ≠ 0 := hq _ (df.get_mem i.1 i.2)
    have hqj : q_norm (df.get j) ≠ 0 := hq _ (df.get_mem j.1 j.2)
    unfold vec_matrix
    by_cases hij : i = j
    · rw [if_pos hij]
      exact ⟨zero_le_one, le_rfl⟩
    · rw [if_neg hij]
      unfold vec_entry
      by_cases henv : (df.get i).env_name ≠ (df.get j).env_name
      · rw [if_pos henv]
        exact ⟨le_rfl, zero_le_one⟩
      · rw [if_neg henv]
        rw [vec_rot_entry_eq _ _ hqi hqj, vec_pos_similarity_eq]
        rw [omul_some, omul_some, oadd_some]
        have hp0 := (pos_similarity_pos (df.get i) (df.get j) Wp Wv).le
        have hp1 := pos_similarity_le_one (df.get i) (df.get j) Wp Wv hWp hWv
        have hd0 := abs_nonneg (dot4 (q_normalized (df.get i)) (q_normalized (df.get j)))
        have hd1 := abs_dot4_le_one _ _ (q_normalized_unit _ hqi) (q_normalized_unit _ hqj)
        constructor
        · exact add_nonneg (mul_nonneg hp0 hWpos) (mul_nonneg hd0 hWrot)
        · nlinarith
  · unfold naive_matrix
    rw [if_pos le_rfl]
    unfold SA
    rw [if_pos rfl]
  · unfold vec_matrix
    rw [if_pos rfl]
  · intro hid henv
    constructor
    · unfold naive_matrix
      by_cases hij : i ≤ j
      · rw [if_pos hij]
        unfold SA
        rw [if_neg hid, if_pos henv]
      · rw [if_neg hij]
        unfold SA
        rw [if_neg (Ne.symm hid), if_pos (Ne.symm henv)]
    · intro hne
      unfold vec_matrix
      rw [if_neg hne]
      unfold vec_entry
      rw [if_pos henv]

theorem matrix_entries_bounded_witness :
    (0 ≤ naive_matrix twoBatch 0.25 0.75 0.6 0.4 tb0 tb1 ∧
     naive_matrix twoBatch 0.25 0.75 0.6 0.4 tb0 tb1 ≤ 1) ∧
    mem_unit (vec_matrix twoBatch 0.25 0.75 0.6 0.4 tb0 tb1) ∧
    naive_matrix twoBatch 0.25 0.75 0.6 0.4 tb0 tb0 = 1 ∧
    vec_matrix twoBatch 0.25 0.75 0.6 0.4 tb0 tb0 = some 1 := by
  have hq : ∀ r ∈ twoBatch, q_norm r ≠ 0 := by
    intro r hr
    simp only [twoBatch, List.mem_cons, List.not_mem_nil, or_false] at hr
    rcases hr with h | h
    · rw [h, q_norm_recA]
      norm_num
    · rw [h, q_norm_recB]
      norm_num
  have h := matrix_entries_bounded twoBatch 0.25 0.75 0.6 0.4 (by norm_num)
    (by norm_num) (by norm_num) (by norm_num) (by norm_num) tb0 tb1
  exact ⟨h.1, h.2.1 hq, h.2.2.1, h.2.2.2.1⟩

/-- C7: on two same-environment, distinct-id records the score equals
`Wpos * exp(-(Wp / (1 + avg_v * Wv)) * d) + Wrot * clamp(|dot(q1n, q2n)|, 0, 1)`
where `d` is the Euclidean position distance and `avg_v` the mean of the
two velocity magnitudes; the equation holds for every `Wpos`, `Wrot`, so no
renormalization is applied even when `Wpos + Wrot ≠ 1`. -/
theorem SA_general_rule_formula (r1 r2 : StateRecord) (Wp Wv Wpos Wrot : ℝ)
    (hid : r1.anchor_id ≠ r2.anchor_id) (henv : r1.env_name = r2.env_name) :
    SA r1 r2 Wp Wv Wpos Wrot =
      Wpos * Real.exp (-(Wp / (1 +
          (norm3 r1.vel_x r1.vel_y r1.vel_z + norm3 r2.vel_x r2.vel_y r2.vel_z) / 2 * Wv)) *
        norm3 (r1.pos_x - r2.pos_x) (r1.pos_y - r2.pos_y) (r1.pos_z - r2.pos_z)) +
      Wrot * min (max |dot4 (q_normalized r1) (q_normalized r2)| 0) 1 := by
  unfold SA
  rw [if_neg hid, if_neg (fun h => h henv)]
  unfold pos_similarity dynamic_scale avg_velocity vel_magnitude pos_distance rot_similarity
  ring

theorem SA_general_rule_formula_witness :
    recA.anchor_id ≠ recB.anchor_id ∧ recA.env_name = recB.env_name ∧
    SA recA recB 0.25 0.75 2 3 =
      2 * Real.exp (-(0.25 / (1 +
          (norm3 recA.vel_x recA.vel_y recA.vel_z +
           norm3 recB.vel_x recB.vel_y recB.vel_z) / 2 * 0.75)) *
        norm3 (recA.pos_x - recB.pos_x) (recA.pos_y - recB.pos_y) (recA.pos_z - recB.pos_z)) +
      3 * min (max |dot4 (q_normalized recA) (q_normalized recB)| 0) 1 :=
  ⟨by norm_num [recA, recB], by norm_num [recA, recB],
   SA_general_rule_formula recA recB 0.25 0.75 2 3
     (by norm_num [recA, recB]) (by norm_num [recA, recB])⟩

theorem pos_distance_recA_recB : pos_distance recA recB = 1 := by
  norm_num [pos_distance, norm3, recA, recB]

theorem pos_distance_recA_recC : pos_distance recA recC = 2 := by
  have h4 : ((0 : ℝ) - 2) ^ 2 + (0 - 0) ^ 2 + (0 - 0) ^ 2 = 2 ^ 2 := by norm_num
  unfold pos_distance norm3
  simp only [recA, recC]
  rw [h4, Real.sqrt_sq (by norm_num : (0 : ℝ) ≤ 2)]

theorem pos_similarity_Wp_zero (r1 r2 : StateRecord) (Wv : ℝ) :
    pos_similarity r1 r2 0 Wv = 1 := by
  unfold pos_similarity dynamic_scale
  rw [zero_div, neg_zero, zero_mul, Real.exp_zero]

/-- C8 counterexample: with `Wp = 0` the claim fails: between `recA` and
`recB` the position distance is 1, between `recA` and `recC` it is 2
(velocities and orientations identical), yet `pos_sim` is 1 in both cases,
so strictly increasing the distance does not strictly decrease `pos_sim`
(and, the rotation channels being equal, the score does not strictly
decrease either, whatever `Wpos > 0`). -/
theorem pos_similarity_not_strictly_decreasing :
    pos_distance recA recB < pos_distance recA recC ∧
    pos_similarity recA recB 0 0.75 = pos_similarity recA recC 0 0.75 := by
  refine ⟨?_, by rw [pos_similarity_Wp_zero, pos_similarity_Wp_zero]⟩
  rw [pos_distance_recA_recB, pos_distance_recA_recC]
  norm_num

/-- C8 (amended): when additionally `Wp > 0` and `Wv ≥ 0`, strictly
increasing the position distance between two same-environment, distinct-id
records — velocities and orientations held fixed — strictly decreases
`pos_sim`, and hence, when `Wpos > 0`, strictly decreases the score. -/
theorem pos_similarity_strict_decrease (r1 r2 r2' : StateRecord)
    (Wp Wv Wpos Wrot : ℝ) (hWp : 0 < Wp) (hWv : 0 ≤ Wv)
    (hvx : r2'.vel_x = r2.vel_x) (hvy : r2'.vel_y = r2.vel_y)
    (hvz : r2'.vel_z = r2.vel_z)
    (hqw : r2'.q_w = r2.q_w) (hqx : r2'.q_x = r2.q_x)
    (hqy : r2'.q_y = r2.q_y) (hqz : r2'.q_z = r2.q_z)
    (hid : r1.anchor_id ≠ r2.anchor_id) (hid' : r1.anchor_id ≠ r2'.anchor_id)
    (henv : r1.env_name = r2.env_name) (henv' : r1.env_name = r2'.env_name)
    (hd : pos_distance r1 r2 < pos_distance r1 r2') :
    pos_similarity r1 r2' Wp Wv < pos_similarity r1 r2 Wp Wv ∧
    (0 < Wpos → SA r1 r2' Wp Wv Wpos Wrot < SA r1 r2 Wp Wv Wpos Wrot) := by
  have hvm : vel_magnitude r2' = vel_magnitude r2 := by
    unfold vel_magnitude
    rw [hvx, hvy, hvz]
  have hscale : dynamic_scale r1 r2' Wp Wv = dynamic_scale r1 r2 Wp Wv := by
    unfold dynamic_scale avg_velocity
    rw [hvm]
  have hspos : 0 < dynamic_scale r1 r2 Wp Wv := dynamic_scale_pos r1 r2 Wp Wv hWp hWv
  have hps : pos_similarity r1 r2' Wp Wv < pos_similarity r1 r2 Wp Wv := by
    unfold pos_similarity
    rw [hscale]
    apply Real.exp_lt_exp.mpr
    have hmul := mul_lt_mul_of_pos_left hd hspos
    nlinarith
  refine ⟨hps, fun hWpos => ?_⟩
  have hrot : rot_similarity r1 r2' = rot_similarity r1 r2 := by
    have hqn : q_normalized r2' = q_normalized r2 := by
      unfold q_normalized q_norm norm4
      rw [hqw, hqx, hqy, hqz]
    unfold rot_similarity
    rw [hqn]
  unfold SA
  rw [if_neg hid, if_neg hid',
    if_neg (show ¬r1.env_name ≠ r2'.env_name from fun h => h henv'),
    if_neg (show ¬r1.env_name ≠ r2.env_name from fun h => h henv)]
  rw [hrot]
  have hlt := mul_lt_mul_of_pos_right hps hWpos
  linarith

theorem pos_similarity_strict_decrease_witness :
    pos_distance recA recB < pos_distance recA recC ∧
    pos_similarity recA recC 1 1 < pos_similarity recA recB 1 1 ∧
    SA recA recC 1 1 0.6 0.4 < SA recA recB 1 1 0.6 0.4 := by
  have hd : pos_distance recA recB < pos_distance recA recC := by
    rw [pos_distance_recA_recB, pos_distance_recA_recC]
    norm_num
  have h := pos_similarity_strict_decrease recA recB recC 1 1 0.6 0.4
    (by norm_num) (by norm_num)
    (by norm_num [recB, recC]) (by norm_num [recB, recC]) (by norm_num [recB, recC])
    (by norm_num [recB, recC]) (by norm_num [recB, recC]) (by norm_num [recB, recC])
    (by norm_num [recB, recC])
    (by norm_num [recA, recB]) (by norm_num [recA, recC])
    (by norm_num [recA, recB]) (by norm_num [recA, recC]) hd
  exact ⟨hd, h.1, h.2 (by norm_num)⟩

/-- C9: the empty batch yields the empty matrix (its index type is empty,
and both builders are total, so no error is raised), and the singleton
batch yields the 1x1 matrix whose only entry is exactly 1 in both the
naive and the vectorized path. -/
theorem empty_and_singleton_matrix (r : StateRecord) (Wp Wv Wpos Wrot : ℝ) :
    (∀ _i : Fin (([] : List StateRecord).length), False) ∧
    (∀ i j : Fin ([r].length),
      naive_matrix [r] Wp Wv Wpos Wrot i j = 1 ∧
      vec_matrix [r] Wp Wv Wpos Wrot i j = some 1) := by
  constructor
  · intro i
    exact absurd i.isLt (by simp)
  · intro i j
    have hij : i = j := by
      apply Fin.ext
      have hi := i.isLt
      have hj := j.isLt
      simp only [List.length_singleton] at hi hj
      omega
    subst hij
    constructor
    · unfold naive_matrix
      rw [if_pos le_rfl]
      unfold SA
      rw [if_pos rfl]
    · unfold vec_matrix
      rw [if_pos rfl]

/-- C10: the pairwise metric is symmetric in its two records for every
hyperparameter assignment: every intermediate quantity (difference norm,
magnitude average, quaternion dot product) is commutative in the two
records, and the two shortcut tests are symmetric relations. -/
theorem SA_comm (r1 r2 : StateRecord) (Wp Wv Wpos Wrot : ℝ) :
    SA r1 r2 Wp Wv Wpos Wrot = SA r2 r1 Wp Wv Wpos Wrot := by
  unfold SA
  by_cases h1 : r1.anchor_id = r2.anchor_id
  · rw [if_pos h1, if_pos h1.symm]
  · rw [if_neg h1,
      if_neg (show ¬r2.anchor_id = r1.anchor_id from fun h => h1 h.symm)]
    by_cases h2 : r1.env_name ≠ r2.env_name
    · rw [if_pos h2, if_pos (show r2.env_name ≠ r1.env_name from Ne.symm h2)]
    · rw [if_neg h2,
        if_neg (show ¬r2.env_name ≠ r1.env_name from fun h => h2 (Ne.symm h))]
      rw [pos_similarity_comm, rot_similarity_comm]

end Similarity
